import Mathlib

/-!
Shallow embedding of the ThinkBot backend chat relay: the per-connection
conversation-history store, the retry orchestrator with exponential backoff
(`makeGeminiRequest` of the Gemini server and `makeOpenRouterRequest` of the
OpenRouter variant), the streamed-chunk relay of the success path, and the
`user_message` / `connection` socket handlers.  The HTTP call itself is
abstracted as a `provider` function indexed by the attempt counter
`retryCount`; everything else is translated directly from the source.
-/

namespace ThinkBot

/-- Role of one history entry, as stored by `addToHistory`. -/
inductive Role where
  | user
  | assistant
deriving DecidableEq

/-- One history entry `{ role, content }`. -/
structure Turn where
  role : Role
  content : String
deriving DecidableEq

abbrev History := List Turn

/-- The `conversationHistory` JavaScript `Map`, as an association list from
socket id to history. -/
abbrev Store := List (String × History)

/-- JavaScript `Map.get`: `none` when the key is absent. -/
def storeGet (s : Store) (k : String) : Option History :=
  match s with
  | [] => none
  | (k2, v) :: rest => if k2 = k then some v else storeGet rest k

/-- JavaScript `Map.set`: replace the entry when the key is present, insert
otherwise. -/
def storeSet (s : Store) (k : String) (v : History) : Store :=
  match s with
  | [] => [(k, v)]
  | (k2, v2) :: rest =>
    if k2 = k then (k2, v) :: rest else (k2, v2) :: storeSet rest k v

/-- The history the store associates to a socket id
(`conversationHistory.get(socketId) || []`). -/
def histOf (s : Store) (k : String) : History :=
  (storeGet s k).getD []

/-- Source `addToHistory(socketId, role, content)`: ensure the entry exists,
push the new turn, then `splice(0, length - 10)` keeps only the last 10
turns. -/
def addToHistory (store : Store) (socketId : String) (role : Role)
    (content : String) : Store :=
  let store :=
    if (storeGet store socketId).isSome then store
    else storeSet store socketId []
  let history := (storeGet store socketId).getD []
  let history := history ++ [⟨role, content⟩]
  let history :=
    if history.length > 10 then history.drop (history.length - 10)
    else history
  storeSet store socketId history

/-- The `connection` handler initialisation:
`conversationHistory.set(socket.id, [])`. -/
def connectionOpen (store : Store) (socketId : String) : Store :=
  storeSet store socketId []

/-- Error codes the catch blocks inspect (`error.code`). -/
inductive ErrCode where
  | ENOTFOUND
  | EAI_NODATA
  | ECONNRESET
  | ECONNREFUSED
deriving DecidableEq

/-- An axios-style request failure: the optional error code, the optional
HTTP status of `error.response`, and the optional
`error.response.data.error.message` body field. -/
structure ProviderError where
  code : Option ErrCode
  status : Option Nat
  dataErrorMessage : Option String
deriving DecidableEq

/-- One Gemini candidate, keeping the `text` of each of its
`content.parts`. -/
structure GeminiCandidate where
  parts : List String
deriving DecidableEq

/-- The `response.data` of the Gemini call. -/
structure GeminiResponse where
  candidates : List GeminiCandidate
deriving DecidableEq

/-- The `response.data` of the OpenRouter call, keeping each choice's
`message.content`. -/
structure ORResponse where
  choices : List String
deriving DecidableEq

/-- An event emitted on the originating socket for the current request. -/
inductive Event where
  | chunk (payload : String)
  | done
deriving DecidableEq

/-- Source constant `maxRetries = 3` (same value in both providers). -/
def maxRetries : Nat := 3

/-- Source `backoffDelay = Math.min(1000 * Math.pow(2, retryCount), 10000)`
(same formula in both providers). -/
def backoffDelay (retryCount : Nat) : Nat :=
  min (1000 * 2 ^ retryCount) 10000

/-- JavaScript `text.split(' ')` with its single-character separator:
split the character list on the space character. -/
def jsSplitSpace (t : String) : List String :=
  (t.data.splitOn ' ').map String.mk

/-- The streaming loop of the success path: walk the word list with its
index `i`, append `(i > 0 ? ' ' : '') + words[i]` to the accumulated chunk,
and flush when `i % 4 == 0` or at the last word. -/
def chunkLoop : List String → Nat → String → List String
  | [], _, _ => []
  | w :: rest, i, cur =>
    let cur := cur ++ (if 0 < i then " " else "") ++ w
    if i % 4 = 0 ∨ rest = [] then
      cur :: chunkLoop rest (i + 1) ""
    else
      chunkLoop rest (i + 1) cur

/-- All chunks the success path emits for a generated text. -/
def chunksOf (text : String) : List String :=
  chunkLoop (jsSplitSpace text) 0 ""

/-- JavaScript `message.trim()`: strip leading and trailing whitespace. -/
def jsTrim (s : String) : String :=
  String.mk
    (((s.data.dropWhile Char.isWhitespace).reverse.dropWhile
      Char.isWhitespace).reverse)

/-- Keep the last `n` elements of a list (the effect of
`splice(0, length - n)`), as a suffix. -/
def keepLast (l : List α) (n : Nat) : List α :=
  l.drop (l.length - n)

/-- Whether an error code is one of the four codes the catch blocks
retry on. -/
def isRetryCode (c : Option ErrCode) : Bool :=
  c == some .ENOTFOUND || c == some .EAI_NODATA ||
    c == some .ECONNRESET || c == some .ECONNREFUSED

/-- JavaScript `a || b` on an optional string (an empty string is falsy). -/
def jsOrElse (o : Option String) (d : String) : String :=
  match o with
  | some s => if s = "" then d else s
  | none => d

/-- User-facing messages, verbatim from the source. -/
def validationMsg : String := "Please send a valid message."

def missingKeyMsg : String :=
  "Server configuration error: Gemini API key not found."

def emptyResponseMsg : String :=
  "I received an empty response. Please try again."

def dnsFailMsg : String :=
  "I\x27m having trouble connecting to my AI service. This appears to be a network connectivity issue. Please try again in a few moments."

def badRequestDefaultMsg : String := "Bad request to AI service."

def accessDeniedMsg : String :=
  "Access denied. Please check the API configuration."

def authErrorMsg : String :=
  "Authentication error. Please check the API configuration."

def rateLimitMsg : String :=
  "I\x27m receiving too many requests. Please wait a moment and try again."

def serverErrorMsg : String :=
  "The AI service is experiencing issues. Please try again later."

def connFailMsg : String :=
  "Connection failed after multiple attempts. Please try again later."

def unknownErrorMsg : String :=
  "An unexpected error occurred. Please try again."

/-- Observable outcome of one `makeGeminiRequest` call: the socket events in
emission order, the store after the call, the backoff waits performed in
order, the number of provider invocations, and the returned boolean. -/
structure ReqResult where
  events : List Event
  store : Store
  delays : List Nat
  attempts : Nat
  ok : Bool
deriving DecidableEq

/-- The body of `makeGeminiRequest`, with the recursion driven by
`retriesLeft = maxRetries - retryCount`, the number of retries still
allowed; the source guard `retryCount < maxRetries` is exactly
`0 < retriesLeft` along every reachable call. -/
def geminiRun (provider : Nat → Except ProviderError GeminiResponse)
    (message socketId : String) :
    Store → Nat → Nat → ReqResult
  | store, retryCount, retriesLeft =>
    match provider retryCount with
    | .ok resp =>
      match resp.candidates with
      | c :: _ =>
        match c.parts with
        | text :: _ =>
          let store := addToHistory store socketId .user message
          let store := addToHistory store socketId .assistant text
          { events := (chunksOf text).map .chunk ++ [.done]
            store := store, delays := [], attempts := 1, ok := true }
        | [] =>
          { events := [.chunk emptyResponseMsg, .done]
            store := store, delays := [], attempts := 1, ok := true }
      | [] =>
        { events := [.chunk emptyResponseMsg, .done]
          store := store, delays := [], attempts := 1, ok := true }
    | .error e =>
      if e.code = some .ENOTFOUND ∨ e.code = some .EAI_NODATA then
        match retriesLeft with
        | left + 1 =>
          let r := geminiRun provider message socketId store (retryCount + 1) left
          { r with delays := backoffDelay retryCount :: r.delays
                   attempts := r.attempts + 1 }
        | 0 =>
          { events := [.chunk dnsFailMsg, .done]
            store := store, delays := [], attempts := 1, ok := false }
      else if e.status = some 400 then
        { events := [.chunk ("Request error: " ++
            jsOrElse e.dataErrorMessage badRequestDefaultMsg), .done]
          store := store, delays := [], attempts := 1, ok := false }
      else if e.status = some 403 then
        { events := [.chunk accessDeniedMsg, .done]
          store := store, delays := [], attempts := 1, ok := false }
      else if e.status = some 429 then
        { events := [.chunk rateLimitMsg, .done]
          store := store, delays := [], attempts := 1, ok := false }
      else if 500 ≤ e.status.getD 0 then
        { events := [.chunk serverErrorMsg, .done]
          store := store, delays := [], attempts := 1, ok := false }
      else if e.code = some .ECONNRESET ∨ e.code = some .ECONNREFUSED then
        match retriesLeft with
        | left + 1 =>
          let r := geminiRun provider message socketId store (retryCount + 1) left
          { r with delays := backoffDelay retryCount :: r.delays
                   attempts := r.attempts + 1 }
        | 0 =>
          { events := [.chunk connFailMsg, .done]
            store := store, delays := [], attempts := 1, ok := false }
      else
        { events := [.chunk unknownErrorMsg, .done]
          store := store, delays := [], attempts := 1, ok := false }

/-- Source `makeGeminiRequest(message, socket, socketId, retryCount)`. -/
def makeGeminiRequest (provider : Nat → Except ProviderError GeminiResponse)
    (message socketId : String) (store : Store) (retryCount : Nat) :
    ReqResult :=
  geminiRun provider message socketId store retryCount (maxRetries - retryCount)

/-- The `user_message` handler of the Gemini server: message validation, the
API-key configuration check, then
`makeGeminiRequest(message.trim(), socket, socket.id)`.  The `ok` field is
the orchestrator's return value and is unused on the early-return paths. -/
def userMessageHandler (provider : Nat → Except ProviderError GeminiResponse)
    (apiKeyConfigured : Bool) (message socketId : String) (store : Store) :
    ReqResult :=
  if (jsTrim message).length = 0 then
    { events := [.chunk validationMsg, .done]
      store := store, delays := [], attempts := 0, ok := true }
  else if !apiKeyConfigured then
    { events := [.chunk missingKeyMsg, .done]
      store := store, delays := [], attempts := 0, ok := true }
  else
    makeGeminiRequest provider (jsTrim message) socketId store 0

/-- Observable outcome of one `makeOpenRouterRequest` call (this variant
keeps no history). -/
structure ORResult where
  events : List Event
  delays : List Nat
  attempts : Nat
  ok : Bool
deriving DecidableEq

/-- The body of `makeOpenRouterRequest`, with the recursion driven by
`retriesLeft` exactly as in `geminiRun`. -/
def openRouterRun (provider : Nat → Except ProviderError ORResponse) :
    Nat → Nat → ORResult
  | retryCount, retriesLeft =>
    match provider retryCount with
    | .ok resp =>
      match resp.choices with
      | text :: _ =>
        { events := [.chunk text, .done], delays := [], attempts := 1, ok := true }
      | [] =>
        { events := [.chunk emptyResponseMsg, .done]
          delays := [], attempts := 1, ok := true }
    | .error e =>
      if e.code = some .ENOTFOUND ∨ e.code = some .EAI_NODATA then
        match retriesLeft with
        | left + 1 =>
          let r := openRouterRun provider (retryCount + 1) left
          { r with delays := backoffDelay retryCount :: r.delays
                   attempts := r.attempts + 1 }
        | 0 =>
          { events := [.chunk dnsFailMsg, .done]
            delays := [], attempts := 1, ok := false }
      else if e.status = some 401 then
        { events := [.chunk authErrorMsg, .done]
          delays := [], attempts := 1, ok := false }
      else if e.status = some 429 then
        { events := [.chunk rateLimitMsg, .done]
          delays := [], attempts := 1, ok := false }
      else if 500 ≤ e.status.getD 0 then
        { events := [.chunk serverErrorMsg, .done]
          delays := [], attempts := 1, ok := false }
      else if e.code = some .ECONNRESET ∨ e.code = some .ECONNREFUSED then
        match retriesLeft with
        | left + 1 =>
          let r := openRouterRun provider (retryCount + 1) left
          { r with delays := backoffDelay retryCount :: r.delays
                   attempts := r.attempts + 1 }
        | 0 =>
          { events := [.chunk connFailMsg, .done]
            delays := [], attempts := 1, ok := false }
      else
        { events := [.chunk unknownErrorMsg, .done]
          delays := [], attempts := 1, ok := false }

/-- Source `makeOpenRouterRequest(message, socket, retryCount)`. -/
def makeOpenRouterRequest (provider : Nat → Except ProviderError ORResponse)
    (retryCount : Nat) : ORResult :=
  openRouterRun provider retryCount (maxRetries - retryCount)

/-- Whether a provider result is a text-bearing success: at least one
candidate whose content has at least one part — the only case in which
`makeGeminiRequest` touches the conversation history. -/
def textBearing (r : Except ProviderError GeminiResponse) : Bool :=
  match r with
  | .ok resp =>
    match resp.candidates with
    | c :: _ => !c.parts.isEmpty
    | [] => false
  | .error _ => false

/-- Concatenation of a list of strings (used to state that the emitted
chunk payloads reassemble the generated text). -/
def concatAll (l : List String) : String :=
  l.foldr (· ++ ·) ""

theorem storeGet_storeSet_self (s : Store) (k : String) (v : History) :
    storeGet (storeSet s k v) k = some v := by
  induction s with
  | nil => simp [storeSet, storeGet]
  | cons kv rest ih =>
    obtain ⟨k2, v2⟩ := kv
    by_cases h : k2 = k
    · simp [storeSet, storeGet, h]
    · simp [storeSet, storeGet, h, ih]

theorem histOf_storeSet_self (s : Store) (k : String) (v : History) :
    histOf (storeSet s k v) k = v := by
  simp [histOf, storeGet_storeSet_self]

theorem keepLast_of_le {l : List α} {n : Nat} (h : l.length ≤ n) :
    keepLast l n = l := by
  simp [keepLast, Nat.sub_eq_zero_of_le h]

theorem length_keepLast_le (l : List α) (n : Nat) :
    (keepLast l n).length ≤ n := by
  simp only [keepLast, List.length_drop]
  omega

theorem keepLast_append_of_le (pre : List α) {m : List α} {n : Nat}
    (h : n ≤ m.length) :
    keepLast (pre ++ m) n = keepLast m n := by
  unfold keepLast
  rw [List.drop_append_eq_append_drop,
    List.drop_eq_nil_of_le (by simp only [List.length_append]; omega)]
  simp only [List.length_append, List.nil_append]
  congr 1
  omega

theorem keepLast_append_keepLast (l ts : List α) (n : Nat) :
    keepLast (keepLast l n ++ ts) n = keepLast (l ++ ts) n := by
  by_cases h : l.length ≤ n
  · rw [keepLast_of_le h]
  · have h2 : n ≤ (List.drop (l.length - n) l ++ ts).length := by
      simp only [List.length_append, List.length_drop]; omega
    conv_rhs => rw [← List.take_append_drop (l.length - n) l, List.append_assoc]
    rw [keepLast_append_of_le _ h2]
    rfl

theorem cap_eq_keepLast (h : History) :
    (if h.length > 10 then h.drop (h.length - 10) else h) = keepLast h 10 := by
  unfold keepLast
  split
  · rfl
  · next hle => rw [Nat.sub_eq_zero_of_le (by omega), List.drop_zero]

theorem histOf_addToHistory (s : Store) (id : String) (r : Role) (c : String) :
    histOf (addToHistory s id r c) id
      = keepLast (histOf s id ++ [⟨r, c⟩]) 10 := by
  unfold addToHistory
  by_cases h : (storeGet s id).isSome
  · rw [if_pos h, histOf_storeSet_self, cap_eq_keepLast]
    rfl
  · rw [if_neg h, histOf_storeSet_self, cap_eq_keepLast]
    have h0 : storeGet s id = none := by
      cases hh : storeGet s id
      · rfl
      · rw [hh] at h; simp at h
    simp [histOf, h0, storeGet_storeSet_self]

theorem histOf_foldl_addToHistory (ts : List Turn) :
    ∀ (s : Store) (id : String),
    histOf (ts.foldl (fun st t => addToHistory st id t.role t.content) s) id
      = ts.foldl (fun h t => keepLast (h ++ [t]) 10) (histOf s id) := by
  induction ts with
  | nil => intro s id; rfl
  | cons t ts ih =>
    intro s id
    simp only [List.foldl_cons]
    rw [ih, histOf_addToHistory]

theorem foldl_keepLast_append (ts : List Turn) :
    ∀ h : History, h.length ≤ 10 →
    ts.foldl (fun h t => keepLast (h ++ [t]) 10) h = keepLast (h ++ ts) 10 := by
  induction ts with
  | nil => intro h hle; simp [keepLast_of_le hle]
  | cons t ts ih =>
    intro h hle
    simp only [List.foldl_cons]
    rw [ih _ (length_keepLast_le _ _), keepLast_append_keepLast]
    simp [List.append_assoc]

/-- C2: for every session and any sequence of appends (starting from a
store whose history satisfies the cap invariant), the stored history is
exactly the last 10 turns of the original history followed by the appended
turns, in chronological order — so its length is at most 10 and the oldest
turns are dropped first. -/
theorem C2_history_capped_fifo (store : Store) (id : String) (ts : List Turn)
    (hcap : (histOf store id).length ≤ 10) :
    histOf (ts.foldl (fun st t => addToHistory st id t.role t.content) store) id
      = keepLast (histOf store id ++ ts) 10 ∧
    (histOf (ts.foldl (fun st t => addToHistory st id t.role t.content)
        store) id).length ≤ 10 := by
  have h1 := histOf_foldl_addToHistory ts store id
  rw [foldl_keepLast_append ts _ hcap] at h1
  exact ⟨h1, h1 ▸ length_keepLast_le _ _⟩

/-- Witness for C2 at a concrete store and 12 consecutive appends. -/
theorem C2_history_capped_fifo_witness :
    histOf ((List.replicate 12 (⟨.user, "x"⟩ : Turn)).foldl
        (fun st t => addToHistory st "s" t.role t.content) ([] : Store)) "s"
      = keepLast (histOf ([] : Store) "s"
          ++ List.replicate 12 (⟨.user, "x"⟩ : Turn)) 10 ∧
    (histOf ((List.replicate 12 (⟨.user, "x"⟩ : Turn)).foldl
        (fun st t => addToHistory st "s" t.role t.content)
        ([] : Store)) "s").length ≤ 10 :=
  C2_history_capped_fifo [] "s" (List.replicate 12 ⟨.user, "x"⟩) (by decide)

/-- C10: when a connection opens, the store maps that connection's session
id to the empty history, discarding anything previously retained under the
same id. -/
theorem C10_connection_open_resets_history (store : Store) (id : String) :
    storeGet (connectionOpen store id) id = some [] :=
  storeGet_storeSet_self store id []

/-- C8: an empty or whitespace-only message short-circuits: the provider is
never invoked (zero attempts), the store is unchanged, and the emitted
events are exactly one validation-error chunk followed by the terminal
signal. -/
theorem C8_empty_message_short_circuit
    (p : Nat → Except ProviderError GeminiResponse) (key : Bool)
    (m id : String) (store : Store) (h : jsTrim m = "") :
    userMessageHandler p key m id store
      = ⟨[.chunk validationMsg, .done], store, [], 0, true⟩ := by
  unfold userMessageHandler
  rw [if_pos (by rw [h]; rfl)]

/-- Witness for C8 on a whitespace-only message and a nonempty store. -/
theorem C8_empty_message_short_circuit_witness :
    userMessageHandler (fun _ => .error ⟨none, none, none⟩) true "   " "s1"
        [("s1", [⟨.user, "hi"⟩])]
      = ⟨[.chunk validationMsg, .done], [("s1", [⟨.user, "hi"⟩])], [], 0, true⟩ :=
  C8_empty_message_short_circuit _ true "   " "s1" _ (by decide)

theorem geminiRun_events_shape
    (p : Nat → Except ProviderError GeminiResponse) (m id : String) :
    ∀ (left rc : Nat) (store : Store), ∃ cs : List String,
    (geminiRun p m id store rc left).events
      = List.map Event.chunk cs ++ [Event.done] := by
  intro left
  induction left with
  | zero =>
    intro rc store
    cases hp : p rc with
    | ok resp =>
      cases hc : resp.candidates with
      | nil => exact ⟨[emptyResponseMsg], by simp [geminiRun, hp, hc]⟩
      | cons c rest =>
        cases hparts : c.parts with
        | nil => exact ⟨[emptyResponseMsg], by simp [geminiRun, hp, hc, hparts]⟩
        | cons t ts => exact ⟨chunksOf t, by simp [geminiRun, hp, hc, hparts]⟩
    | error e =>
      simp only [geminiRun, hp]
      split_ifs <;> exact ⟨[_], rfl⟩
  | succ left ih =>
    intro rc store
    cases hp : p rc with
    | ok resp =>
      cases hc : resp.candidates with
      | nil => exact ⟨[emptyResponseMsg], by simp [geminiRun, hp, hc]⟩
      | cons c rest =>
        cases hparts : c.parts with
        | nil => exact ⟨[emptyResponseMsg], by simp [geminiRun, hp, hc, hparts]⟩
        | cons t ts => exact ⟨chunksOf t, by simp [geminiRun, hp, hc, hparts]⟩
    | error e =>
      simp only [geminiRun, hp]
      split_ifs with h1 h2 h3 h4 h5 h6
      · simpa using ih (rc + 1) store
      · exact ⟨[_], rfl⟩
      · exact ⟨[_], rfl⟩
      · exact ⟨[_], rfl⟩
      · exact ⟨[_], rfl⟩
      · simpa using ih (rc + 1) store
      · exact ⟨[_], rfl⟩

theorem count_done_chunks (cs : List String) :
    ((List.map Event.chunk cs ++ [Event.done]).count Event.done) = 1 := by
  rw [List.count_append]
  have h0 : (List.map Event.chunk cs).count Event.done = 0 := by
    rw [List.count_eq_zero]
    simp
  rw [h0]
  rfl

/-- C1: for every `user_message`, the emitted event sequence is some chunks
followed by exactly one `bot_message_done` — the terminal signal is always
last, is unique, and no chunk follows it, on every path (success,
empty response, validation failure, missing configuration, every error
classification, retries exhausted). -/
theorem C1_exactly_one_terminal_done
    (p : Nat → Except ProviderError GeminiResponse) (key : Bool)
    (m id : String) (store : Store) :
    ∃ cs : List String, (userMessageHandler p key m id store).events
        = List.map Event.chunk cs ++ [Event.done] ∧
      (userMessageHandler p key m id store).events.count Event.done = 1 := by
  unfold userMessageHandler makeGeminiRequest
  split_ifs with h1 h2
  · exact ⟨[validationMsg], rfl, count_done_chunks [validationMsg]⟩
  · exact ⟨[missingKeyMsg], rfl, count_done_chunks [missingKeyMsg]⟩
  · obtain ⟨cs, hcs⟩ :=
      geminiRun_events_shape p (jsTrim m) id (maxRetries - 0) 0 store
    exact ⟨cs, hcs, by rw [hcs]; exact count_done_chunks cs⟩

theorem geminiRun_store_frame
    (p : Nat → Except ProviderError GeminiResponse) (m id : String)
    (hp : ∀ i, textBearing (p i) = false) :
    ∀ (left rc : Nat) (store : Store),
    (geminiRun p m id store rc left).store = store := by
  intro left
  induction left with
  | zero =>
    intro rc store
    cases hpe : p rc with
    | ok resp =>
      have hb := hp rc
      rw [hpe] at hb
      cases hc : resp.candidates with
      | nil => simp [geminiRun, hpe, hc]
      | cons c rest =>
        cases hparts : c.parts with
        | nil => simp [geminiRun, hpe, hc, hparts]
        | cons t ts => simp [textBearing, hc, hparts] at hb
    | error e =>
      simp only [geminiRun, hpe]
      split_ifs <;> rfl
  | succ left ih =>
    intro rc store
    cases hpe : p rc with
    | ok resp =>
      have hb := hp rc
      rw [hpe] at hb
      cases hc : resp.candidates with
      | nil => simp [geminiRun, hpe, hc]
      | cons c rest =>
        cases hparts : c.parts with
        | nil => simp [geminiRun, hpe, hc, hparts]
        | cons t ts => simp [textBearing, hc, hparts] at hb
    | error e =>
      simp only [geminiRun, hpe]
      split_ifs with h1 h2 h3 h4 h5 h6
      · simpa using ih (rc + 1) store
      · rfl
      · rfl
      · rfl
      · rfl
      · simpa using ih (rc + 1) store
      · rfl

/-- C9: on every outcome in which no attempt yields a text-bearing success
(retries exhausted, fatal error, malformed or empty provider response,
missing configuration, validation failure), the conversation store — and
hence the session's history — is exactly what it was before the request. -/
theorem C9_failure_leaves_history_unchanged
    (p : Nat → Except ProviderError GeminiResponse) (key : Bool)
    (m id : String) (store : Store)
    (hp : ∀ i, textBearing (p i) = false) :
    (userMessageHandler p key m id store).store = store := by
  unfold userMessageHandler makeGeminiRequest
  split_ifs with h1 h2
  · rfl
  · rfl
  · exact geminiRun_store_frame p (jsTrim m) id hp (maxRetries - 0) 0 store

/-- Witness for C9 with an always-5xx provider and a nonempty history. -/
theorem C9_failure_leaves_history_unchanged_witness :
    (userMessageHandler (fun _ => .error ⟨none, some 500, none⟩) true "Hello"
      "s1" [("s1", [⟨.user, "a"⟩])]).store = [("s1", [⟨.user, "a"⟩])] :=
  C9_failure_leaves_history_unchanged _ true "Hello" "s1" _ (fun _ => rfl)

theorem geminiRun_delays_formula
    (p : Nat → Except ProviderError GeminiResponse) (m id : String) :
    ∀ (left rc : Nat) (store : Store), ∃ n,
    (geminiRun p m id store rc left).attempts = n + 1 ∧
    (geminiRun p m id store rc left).delays
      = (List.range' rc n).map backoffDelay := by
  intro left
  induction left with
  | zero =>
    intro rc store
    refine ⟨0, ?_⟩
    cases hp : p rc with
    | ok resp =>
      cases hc : resp.candidates with
      | nil => simp [geminiRun, hp, hc]
      | cons c rest =>
        cases hparts : c.parts with
        | nil => simp [geminiRun, hp, hc, hparts]
        | cons t ts => simp [geminiRun, hp, hc, hparts]
    | error e =>
      simp only [geminiRun, hp]
      split_ifs <;> simp
  | succ left ih =>
    intro rc store
    cases hp : p rc with
    | ok resp =>
      refine ⟨0, ?_⟩
      cases hc : resp.candidates with
      | nil => simp [geminiRun, hp, hc]
      | cons c rest =>
        cases hparts : c.parts with
        | nil => simp [geminiRun, hp, hc, hparts]
        | cons t ts => simp [geminiRun, hp, hc, hparts]
    | error e =>
      simp only [geminiRun, hp]
      split_ifs with h1 h2 h3 h4 h5 h6
      · obtain ⟨n, ha, hd⟩ := ih (rc + 1) store
        exact ⟨n + 1, by simp [ha], by simp [hd, List.range'_succ]⟩
      · exact ⟨0, by simp, by simp⟩
      · exact ⟨0, by simp, by simp⟩
      · exact ⟨0, by simp, by simp⟩
      · exact ⟨0, by simp, by simp⟩
      · obtain ⟨n, ha, hd⟩ := ih (rc + 1) store
        exact ⟨n + 1, by simp [ha], by simp [hd, List.range'_succ]⟩
      · exact ⟨0, by simp, by simp⟩

theorem openRouterRun_delays_formula
    (p : Nat → Except ProviderError ORResponse) :
    ∀ (left rc : Nat), ∃ n,
    (openRouterRun p rc left).attempts = n + 1 ∧
    (openRouterRun p rc left).delays
      = (List.range' rc n).map backoffDelay := by
  intro left
  induction left with
  | zero =>
    intro rc
    refine ⟨0, ?_⟩
    cases hp : p rc with
    | ok resp =>
      cases hc : resp.choices with
      | nil => simp [openRouterRun, hp, hc]
      | cons t ts => simp [openRouterRun, hp, hc]
    | error e =>
      simp only [openRouterRun, hp]
      split_ifs <;> simp
  | succ left ih =>
    intro rc
    cases hp : p rc with
    | ok resp =>
      refine ⟨0, ?_⟩
      cases hc : resp.choices with
      | nil => simp [openRouterRun, hp, hc]
      | cons t ts => simp [openRouterRun, hp, hc]
    | error e =>
      simp only [openRouterRun, hp]
      split_ifs with h1 h2 h3 h4 h5
      · obtain ⟨n, ha, hd⟩ := ih (rc + 1)
        exact ⟨n + 1, by simp [ha], by simp [hd, List.range'_succ]⟩
      · exact ⟨0, by simp, by simp⟩
      · exact ⟨0, by simp, by simp⟩
      · exact ⟨0, by simp, by simp⟩
      · obtain ⟨n, ha, hd⟩ := ih (rc + 1)
        exact ⟨n + 1, by simp [ha], by simp [hd, List.range'_succ]⟩
      · exact ⟨0, by simp, by simp⟩

/-- C5: the backoff delay before attempt `i + 1` is
`min(1000 * 2 ^ i, 10000)`; it is monotonically non-decreasing and capped
at 10000 ms; and in every run of either provider the performed waits are
exactly `backoffDelay 0, …, backoffDelay (attempts - 2)` — one fewer wait
than attempts, so no wait precedes the first attempt. -/
theorem C5_backoff_delay_formula :
    (∀ i, backoffDelay i = min (1000 * 2 ^ i) 10000) ∧
    (∀ i j, i ≤ j → backoffDelay i ≤ backoffDelay j) ∧
    (∀ i, backoffDelay i ≤ 10000) ∧
    (∀ (p : Nat → Except ProviderError GeminiResponse) m id store, ∃ n,
      (makeGeminiRequest p m id store 0).attempts = n + 1 ∧
      (makeGeminiRequest p m id store 0).delays
        = (List.range n).map backoffDelay) ∧
    (∀ (p : Nat → Except ProviderError ORResponse), ∃ n,
      (makeOpenRouterRequest p 0).attempts = n + 1 ∧
      (makeOpenRouterRequest p 0).delays = (List.range n).map backoffDelay) := by
  refine ⟨fun i => rfl, ?_, fun i => min_le_right _ _, ?_, ?_⟩
  · intro i j hij
    exact min_le_min
      (Nat.mul_le_mul_left _ (Nat.pow_le_pow_right (by norm_num) hij)) le_rfl
  · intro p m id store
    obtain ⟨n, ha, hd⟩ :=
      geminiRun_delays_formula p m id (maxRetries - 0) 0 store
    exact ⟨n, ha, by rw [List.range_eq_range']; exact hd⟩
  · intro p
    obtain ⟨n, ha, hd⟩ := openRouterRun_delays_formula p (maxRetries - 0) 0
    exact ⟨n, ha, by rw [List.range_eq_range']; exact hd⟩

/-- Witness for C5: monotonicity at a concrete pair, and the delay list of
a concrete always-DNS-failing run. -/
theorem C5_backoff_delay_formula_witness :
    backoffDelay 1 ≤ backoffDelay 2 ∧
    (∃ n, (makeGeminiRequest (fun _ => .error ⟨some .ENOTFOUND, none, none⟩)
        "Hello" "s1" [] 0).attempts = n + 1 ∧
      (makeGeminiRequest (fun _ => .error ⟨some .ENOTFOUND, none, none⟩)
        "Hello" "s1" [] 0).delays = (List.range n).map backoffDelay) :=
  ⟨C5_backoff_delay_formula.2.1 1 2 (by decide),
   C5_backoff_delay_formula.2.2.2.1 _ "Hello" "s1" []⟩

theorem makeGeminiRequest_eq_run
    (p : Nat → Except ProviderError GeminiResponse) (m id : String)
    (store : Store) :
    makeGeminiRequest p m id store 0 = geminiRun p m id store 0 (Nat.succ 2) :=
  rfl

theorem makeOpenRouterRequest_eq_run
    (p : Nat → Except ProviderError ORResponse) :
    makeOpenRouterRequest p 0 = openRouterRun p 0 (Nat.succ 2) :=
  rfl

theorem isRetryCode_eq_false {c : Option ErrCode}
    (h : isRetryCode c = false) :
    c ≠ some .ENOTFOUND ∧ c ≠ some .EAI_NODATA ∧
      c ≠ some .ECONNRESET ∧ c ≠ some .ECONNREFUSED := by
  simp [isRetryCode] at h
  tauto

/-- C3 counterexample: with a provider that always fails with HTTP 500, the
Gemini and OpenRouter orchestrators both perform exactly one attempt and no
backoff wait — not `maxAttempts` attempts as claimed (`maxRetries = 3`
would allow up to 4). -/
theorem C3_counterexample_5xx_not_retried :
    (makeGeminiRequest (fun _ => .error ⟨none, some 500, none⟩)
      "Hello" "s1" [] 0).attempts = 1 ∧
    (makeGeminiRequest (fun _ => .error ⟨none, some 500, none⟩)
      "Hello" "s1" [] 0).delays = [] ∧
    (makeOpenRouterRequest (fun _ => .error ⟨none, some 500, none⟩)
      0).attempts = 1 ∧
    (makeOpenRouterRequest (fun _ => .error ⟨none, some 500, none⟩)
      0).delays = [] ∧
    1 < maxRetries := by
  decide

/-- C3 (amended): a 5xx upstream error is fatal in the implementation —
the provider is invoked exactly once, no backoff wait occurs, a single
server-error chunk is emitted followed by the terminal signal, and the
store is unchanged (in both provider variants). -/
theorem C3_amended_5xx_is_fatal :
    (∀ (p : Nat → Except ProviderError GeminiResponse) (m id : String)
      (store : Store) (e : ProviderError) (s : Nat),
      p 0 = .error e → e.code ≠ some .ENOTFOUND → e.code ≠ some .EAI_NODATA →
      e.status = some s → 500 ≤ s →
      makeGeminiRequest p m id store 0
        = ⟨[.chunk serverErrorMsg, .done], store, [], 1, false⟩) ∧
    (∀ (p : Nat → Except ProviderError ORResponse) (e : ProviderError)
      (s : Nat),
      p 0 = .error e → e.code ≠ some .ENOTFOUND → e.code ≠ some .EAI_NODATA →
      e.status = some s → 500 ≤ s →
      makeOpenRouterRequest p 0
        = ⟨[.chunk serverErrorMsg, .done], [], 1, false⟩) := by
  constructor
  · intro p m id store e s hp h1 h2 hs h5
    have e400 : e.status ≠ some 400 := by rw [hs]; simp; omega
    have e403 : e.status ≠ some 403 := by rw [hs]; simp; omega
    have e429 : e.status ≠ some 429 := by rw [hs]; simp; omega
    have e500 : 500 ≤ e.status.getD 0 := by rw [hs]; exact h5
    rw [makeGeminiRequest_eq_run]
    simp [geminiRun, hp, h1, h2, e400, e403, e429, e500]
  · intro p e s hp h1 h2 hs h5
    have e401 : e.status ≠ some 401 := by rw [hs]; simp; omega
    have e429 : e.status ≠ some 429 := by rw [hs]; simp; omega
    have e500 : 500 ≤ e.status.getD 0 := by rw [hs]; exact h5
    rw [makeOpenRouterRequest_eq_run]
    simp [openRouterRun, hp, h1, h2, e401, e429, e500]

/-- Witness for the amended C3 at status 503. -/
theorem C3_amended_5xx_is_fatal_witness :
    makeGeminiRequest (fun _ => .error ⟨none, some 503, none⟩)
        "Hello" "s1" [] 0
      = ⟨[.chunk serverErrorMsg, .done], [], [], 1, false⟩ ∧
    makeOpenRouterRequest (fun _ => .error ⟨none, some 503, none⟩) 0
      = ⟨[.chunk serverErrorMsg, .done], [], 1, false⟩ :=
  ⟨C3_amended_5xx_is_fatal.1 _ "Hello" "s1" [] _ 503 rfl (by decide)
      (by decide) rfl (by decide),
   C3_amended_5xx_is_fatal.2 _ _ 503 rfl (by decide) (by decide) rfl
      (by decide)⟩

/-- C4: a fatal classification — auth failure (401/403), a 4xx bad request
other than rate limiting, or a malformed/empty 2xx response — causes zero
retries: the provider is invoked exactly once, no backoff wait occurs, and
exactly one human-readable error chunk is emitted followed by the terminal
signal (in both provider variants; the store is also unchanged). -/
theorem C4_fatal_zero_retries :
    (∀ (p : Nat → Except ProviderError GeminiResponse) (m id : String)
      (store : Store) (e : ProviderError) (s : Nat),
      p 0 = .error e → isRetryCode e.code = false →
      e.status = some s → 400 ≤ s → s < 500 → s ≠ 429 →
      ∃ msg, makeGeminiRequest p m id store 0
        = ⟨[.chunk msg, .done], store, [], 1, false⟩) ∧
    (∀ (p : Nat → Except ProviderError GeminiResponse) (m id : String)
      (store : Store) (resp : GeminiResponse),
      p 0 = .ok resp → textBearing (.ok resp) = false →
      makeGeminiRequest p m id store 0
        = ⟨[.chunk emptyResponseMsg, .done], store, [], 1, true⟩) ∧
    (∀ (p : Nat → Except ProviderError ORResponse) (e : ProviderError)
      (s : Nat),
      p 0 = .error e → isRetryCode e.code = false →
      e.status = some s → 400 ≤ s → s < 500 → s ≠ 429 →
      ∃ msg, makeOpenRouterRequest p 0
        = ⟨[.chunk msg, .done], [], 1, false⟩) := by
  refine ⟨?_, ?_, ?_⟩
  · intro p m id store e s hp hcode hs h4a h4b h429
    obtain ⟨h1, h2, h3, h4⟩ := isRetryCode_eq_false hcode
    have e500 : ¬ 500 ≤ e.status.getD 0 := by rw [hs]; simp; omega
    by_cases b400 : s = 400
    · refine ⟨"Request error: " ++
        jsOrElse e.dataErrorMessage badRequestDefaultMsg, ?_⟩
      have hs400 : e.status = some 400 := by rw [hs, b400]
      rw [makeGeminiRequest_eq_run]
      simp [geminiRun, hp, h1, h2, hs400]
    · by_cases b403 : s = 403
      · refine ⟨accessDeniedMsg, ?_⟩
        have hs403 : e.status = some 403 := by rw [hs, b403]
        rw [makeGeminiRequest_eq_run]
        simp [geminiRun, hp, h1, h2, hs403]
      · refine ⟨unknownErrorMsg, ?_⟩
        have e400 : e.status ≠ some 400 := by rw [hs]; simp; omega
        have e403 : e.status ≠ some 403 := by rw [hs]; simp; omega
        have e429 : e.status ≠ some 429 := by rw [hs]; simp; omega
        rw [makeGeminiRequest_eq_run]
        simp [geminiRun, hp, h1, h2, h3, h4, e400, e403, e429, e500]
  · intro p m id store resp hp hb
    cases hc : resp.candidates with
    | nil => rw [makeGeminiRequest_eq_run]; simp [geminiRun, hp, hc]
    | cons c rest =>
      cases hparts : c.parts with
      | nil => rw [makeGeminiRequest_eq_run]; simp [geminiRun, hp, hc, hparts]
      | cons t ts => simp [textBearing, hc, hparts] at hb
  · intro p e s hp hcode hs h4a h4b h429
    obtain ⟨h1, h2, h3, h4⟩ := isRetryCode_eq_false hcode
    have e500 : ¬ 500 ≤ e.status.getD 0 := by rw [hs]; simp; omega
    by_cases b401 : s = 401
    · refine ⟨authErrorMsg, ?_⟩
      have hs401 : e.status = some 401 := by rw [hs, b401]
      rw [makeOpenRouterRequest_eq_run]
      simp [openRouterRun, hp, h1, h2, hs401]
    · refine ⟨unknownErrorMsg, ?_⟩
      have e401 : e.status ≠ some 401 := by rw [hs]; simp; omega
      have e429 : e.status ≠ some 429 := by rw [hs]; simp; omega
      rw [makeOpenRouterRequest_eq_run]
      simp [openRouterRun, hp, h1, h2, h3, h4, e401, e429, e500]

/-- Witness for C4: a 403 auth failure and an empty 2xx response on the
Gemini variant, and a 401 auth failure on the OpenRouter variant. -/
theorem C4_fatal_zero_retries_witness :
    (∃ msg, makeGeminiRequest (fun _ => .error ⟨none, some 403, none⟩)
        "Hello" "s1" [] 0
      = ⟨[.chunk msg, .done], [], [], 1, false⟩) ∧
    makeGeminiRequest (fun _ => .ok ⟨[]⟩) "Hello" "s1" [] 0
      = ⟨[.chunk emptyResponseMsg, .done], [], [], 1, true⟩ ∧
    (∃ msg, makeOpenRouterRequest (fun _ => .error ⟨none, some 401, none⟩) 0
      = ⟨[.chunk msg, .done], [], 1, false⟩) :=
  ⟨C4_fatal_zero_retries.1 _ "Hello" "s1" [] _ 403 rfl (by decide) rfl
      (by decide) (by decide) (by decide),
   C4_fatal_zero_retries.2.1 _ "Hello" "s1" [] _ rfl (by decide),
   C4_fatal_zero_retries.2.2 _ _ 401 rfl (by decide) rfl (by decide)
      (by decide) (by decide)⟩

/-- C6 counterexample: with a provider that always fails with HTTP 429, both
orchestrators perform exactly one attempt and no backoff wait — the rate
limited request is not retried as claimed. -/
theorem C6_counterexample_429_not_retried :
    (makeGeminiRequest (fun _ => .error ⟨none, some 429, none⟩)
      "Hello" "s1" [] 0).attempts = 1 ∧
    (makeGeminiRequest (fun _ => .error ⟨none, some 429, none⟩)
      "Hello" "s1" [] 0).delays = [] ∧
    (makeOpenRouterRequest (fun _ => .error ⟨none, some 429, none⟩)
      0).attempts = 1 ∧
    (makeOpenRouterRequest (fun _ => .error ⟨none, some 429, none⟩)
      0).delays = [] ∧
    1 < maxRetries := by
  decide

/-- C6 (amended): a RateLimited (429) error is fatal in the implementation
— no retry occurs (a single attempt, no wait) — but it does surface a
distinct user-facing hint about rate limiting, different from the other
error messages, followed by the terminal signal. -/
theorem C6_amended_429_hint_without_retry :
    (∀ (p : Nat → Except ProviderError GeminiResponse) (m id : String)
      (store : Store) (e : ProviderError),
      p 0 = .error e → e.code ≠ some .ENOTFOUND → e.code ≠ some .EAI_NODATA →
      e.status = some 429 →
      makeGeminiRequest p m id store 0
        = ⟨[.chunk rateLimitMsg, .done], store, [], 1, false⟩) ∧
    (∀ (p : Nat → Except ProviderError ORResponse) (e : ProviderError),
      p 0 = .error e → e.code ≠ some .ENOTFOUND → e.code ≠ some .EAI_NODATA →
      e.status = some 429 →
      makeOpenRouterRequest p 0
        = ⟨[.chunk rateLimitMsg, .done], [], 1, false⟩) ∧
    rateLimitMsg ≠ serverErrorMsg ∧ rateLimitMsg ≠ unknownErrorMsg ∧
    rateLimitMsg ≠ dnsFailMsg ∧ rateLimitMsg ≠ connFailMsg := by
  refine ⟨?_, ?_, by decide, by decide, by decide, by decide⟩
  · intro p m id store e hp h1 h2 hs
    rw [makeGeminiRequest_eq_run]
    simp [geminiRun, hp, h1, h2, hs]
  · intro p e hp h1 h2 hs
    rw [makeOpenRouterRequest_eq_run]
    simp [openRouterRun, hp, h1, h2, hs]

/-- Witness for the amended C6 on a concrete 429 failure. -/
theorem C6_amended_429_hint_without_retry_witness :
    makeGeminiRequest (fun _ => .error ⟨none, some 429, none⟩)
        "Hello" "s1" [] 0
      = ⟨[.chunk rateLimitMsg, .done], [], [], 1, false⟩ ∧
    makeOpenRouterRequest (fun _ => .error ⟨none, some 429, none⟩) 0
      = ⟨[.chunk rateLimitMsg, .done], [], 1, false⟩ :=
  ⟨C6_amended_429_hint_without_retry.1 _ "Hello" "s1" [] _ rfl (by decide)
      (by decide) rfl,
   C6_amended_429_hint_without_retry.2.1 _ _ rfl (by decide) (by decide) rfl⟩

theorem strAppend_assoc (a b c : String) : a ++ b ++ c = a ++ (b ++ c) := by
  obtain ⟨la⟩ := a
  obtain ⟨lb⟩ := b
  obtain ⟨lc⟩ := c
  show String.mk (la ++ lb ++ lc) = String.mk (la ++ (lb ++ lc))
  rw [List.append_assoc]

theorem stringLength_eq_zero {s : String} (h : s.length = 0) : s = "" := by
  obtain ⟨d⟩ := s
  cases d with
  | nil => rfl
  | cons a as => simp [String.length] at h

theorem concatAll_chunkLoop (ws : List String) :
    ∀ (i : Nat) (cur : String), 0 < i → (ws = [] → cur = "") →
    concatAll (chunkLoop ws i cur)
      = cur ++ concatAll (ws.map (fun w => " " ++ w)) := by
  induction ws with
  | nil =>
    intro i cur _ hcur
    rw [hcur rfl]
    rfl
  | cons w rest ih =>
    intro i cur hi hcur
    simp only [chunkLoop]
    rw [if_pos hi]
    by_cases hfl : i % 4 = 0 ∨ rest = []
    · rw [if_pos hfl]
      show (cur ++ " " ++ w) ++ concatAll (chunkLoop rest (i + 1) "") = _
      rw [ih (i + 1) "" (by omega) (fun _ => rfl), List.map_cons]
      show (cur ++ " " ++ w) ++ concatAll (rest.map (fun w => " " ++ w))
        = cur ++ ((" " ++ w) ++ concatAll (rest.map (fun w => " " ++ w)))
      simp only [strAppend_assoc]
    · rw [if_neg hfl]
      have hrne : rest ≠ [] := fun h => hfl (Or.inr h)
      rw [ih (i + 1) (cur ++ " " ++ w) (by omega)
        (fun h => absurd h hrne), List.map_cons]
      show (cur ++ " " ++ w) ++ concatAll (rest.map (fun w => " " ++ w))
        = cur ++ ((" " ++ w) ++ concatAll (rest.map (fun w => " " ++ w)))
      simp only [strAppend_assoc]

theorem concatAll_map_mk_cons (ls : List (List Char)) :
    concatAll (ls.map (fun l => String.mk (' ' :: l)))
      = String.mk ((ls.map (fun l => ' ' :: l)).flatten) := by
  induction ls with
  | nil => rfl
  | cons l ls ih =>
    show String.mk (' ' :: l)
        ++ concatAll (ls.map (fun l => String.mk (' ' :: l))) = _
    rw [ih]
    rfl

theorem join_intersperse_space (l0 : List Char) (ls : List (List Char)) :
    ((l0 :: ls).intersperse [' ']).flatten
      = l0 ++ (ls.map (fun l => ' ' :: l)).flatten := by
  induction ls generalizing l0 with
  | nil => simp
  | cons l1 ls2 ih =>
    rw [List.intersperse_cons_cons]
    simp only [List.flatten_cons]
    rw [ih l1]
    simp [List.append_assoc]

/-- The emitted chunk payloads of the success path reassemble the generated
text exactly. -/
theorem concatAll_chunksOf (t : String) : concatAll (chunksOf t) = t := by
  obtain ⟨d⟩ := t
  show concatAll (chunkLoop ((d.splitOn ' ').map String.mk) 0 "") = String.mk d
  cases hsplit : d.splitOn ' ' with
  | nil =>
    exact absurd hsplit
      (by simp only [List.splitOn]; exact List.splitOnP_ne_nil _ _)
  | cons l0 ls =>
    rw [List.map_cons]
    rw [show chunkLoop (String.mk l0 :: ls.map String.mk) 0 ""
        = String.mk l0 :: chunkLoop (ls.map String.mk) 1 "" from rfl]
    show String.mk l0 ++ concatAll (chunkLoop (ls.map String.mk) 1 "")
      = String.mk d
    rw [concatAll_chunkLoop (ls.map String.mk) 1 "" (by omega) (fun _ => rfl),
      List.map_map]
    show String.mk l0
        ++ concatAll (ls.map (fun l => String.mk (' ' :: l))) = String.mk d
    rw [concatAll_map_mk_cons]
    show String.mk (l0 ++ (ls.map (fun l => ' ' :: l)).flatten) = String.mk d
    rw [← join_intersperse_space l0 ls]
    have hi := List.intercalate_splitOn d ' '
    rw [hsplit] at hi
    rw [← hi]
    rfl

theorem keepLast_ends_with_two (h : History) (u a : Turn) :
    ∃ pre, keepLast (h ++ [u, a]) 10 = pre ++ [u, a] := by
  refine ⟨h.drop ((h ++ [u, a]).length - 10), ?_⟩
  unfold keepLast
  have hn : (h ++ [u, a]).length - 10 - h.length = 0 := by
    simp only [List.length_append, List.length_cons, List.length_nil]
    omega
  rw [List.drop_append_eq_append_drop, hn, List.drop_zero]

/-- C7: for a successful request with a trimmed non-empty message `m` and a
provider reply whose first candidate carries text `t`, the emitted events
are chunks followed by the terminal signal, the concatenation of the chunk
payloads equals `t` exactly, and the session's history afterwards ends with
the two new turns `{user, m}` then `{assistant, t}` in that order. -/
theorem C7_success_end_to_end
    (p : Nat → Except ProviderError GeminiResponse) (m id : String)
    (store : Store) (resp : GeminiResponse) (c : GeminiCandidate)
    (cs : List GeminiCandidate) (t : String) (ps : List String)
    (hm : jsTrim m = m) (hne : m ≠ "")
    (hp : p 0 = .ok resp) (hc : resp.candidates = c :: cs)
    (hparts : c.parts = t :: ps) :
    (∃ chunks : List String,
      (userMessageHandler p true m id store).events
        = List.map Event.chunk chunks ++ [Event.done] ∧
      concatAll chunks = t) ∧
    (∃ pre, histOf (userMessageHandler p true m id store).store id
        = pre ++ [⟨.user, m⟩, ⟨.assistant, t⟩]) := by
  have hlen : ¬ (jsTrim m).length = 0 := by
    rw [hm]
    intro h0
    exact hne (stringLength_eq_zero h0)
  have hrun : userMessageHandler p true m id store
      = { events := List.map Event.chunk (chunksOf t) ++ [Event.done]
          store := addToHistory (addToHistory store id .user (jsTrim m)) id
            .assistant t
          delays := [], attempts := 1, ok := true } := by
    unfold userMessageHandler
    rw [if_neg hlen]
    show makeGeminiRequest p (jsTrim m) id store 0 = _
    rw [makeGeminiRequest_eq_run]
    simp [geminiRun, hp, hc, hparts]
  rw [hrun, hm]
  constructor
  · exact ⟨chunksOf t, rfl, concatAll_chunksOf t⟩
  · show ∃ pre,
      histOf (addToHistory (addToHistory store id .user m) id .assistant t) id
        = pre ++ [⟨.user, m⟩, ⟨.assistant, t⟩]
    rw [histOf_addToHistory, histOf_addToHistory, keepLast_append_keepLast,
      List.append_assoc]
    exact keepLast_ends_with_two (histOf store id) ⟨.user, m⟩ ⟨.assistant, t⟩

/-- Witness for C7: the spec's end-to-end example — message `"Hello"` on an
empty session with a stub reply. -/
theorem C7_success_end_to_end_witness :
    (∃ chunks : List String,
      (userMessageHandler
          (fun _ => .ok ⟨[⟨["Hi there, how can I help?"]⟩]⟩)
          true "Hello" "s1" []).events
        = List.map Event.chunk chunks ++ [Event.done] ∧
      concatAll chunks = "Hi there, how can I help?") ∧
    (∃ pre, histOf (userMessageHandler
          (fun _ => .ok ⟨[⟨["Hi there, how can I help?"]⟩]⟩)
          true "Hello" "s1" []).store "s1"
        = pre ++ [⟨.user, "Hello"⟩,
            ⟨.assistant, "Hi there, how can I help?"⟩]) :=
  C7_success_end_to_end _ "Hello" "s1" []
    ⟨[⟨["Hi there, how can I help?"]⟩]⟩ ⟨["Hi there, how can I help?"]⟩ []
    "Hi there, how can I help?" [] (by decide) (by decide) rfl rfl rfl

end ThinkBot
